import Mathlib

/-!
Shallow embedding of the chakshu dataset-quality scanner
(`src/inspection/03_check_for_false_triggers.py`) and proofs about it.

The scanner builds an annotation index (`annotations_dict`), partitions the
dataset into one work item per image, evaluates every work item with
`process_single_image` (dispatched through `multiprocessing.Pool.imap` with
`chunksize=50`, which yields results in submission order), and folds the
per-image issue dictionaries into one report with `merge_issues`.

Numbers are embedded exactly: pixel dimensions are `Nat`, brightness values
and bounding-box coordinates are `ℚ`.  The filesystem together with the image
decoder (`os.path.exists` + `cv2.imread` + `cv2.cvtColor`) is embedded as a
function from paths to optionally-decoded images; `none` covers both a missing
file and an undecodable one, the two cases the source treats identically.

Two levels are embedded:
* a typed level, where every annotation carries a well-formed 4-component
  bounding box — this is the data path of a scan that raises no exception;
* a raw level (`RawAnnotation`, suffix `_raw`), where `ann['bbox']` is
  whatever list of numbers the JSON held, so the subscripts
  `ann['bbox'][2]` / `ann['bbox'][3]` can raise `IndexError`.  Exceptions are
  embedded with `Except`: the source contains no handler around the
  per-annotation loop nor around the `pool.imap` result loop, and
  `Pool.imap` re-raises a worker exception in the parent, so an exception in
  one unit propagates out of `check_data_quality`.
-/

namespace Chakshu

/-- A decoded raster image: `h`, `w` are the pixel dimensions read from
`img.shape[:2]`, and `gray` lists the single-channel luminance value of every
pixel (scale 0–255) as produced by the grayscale conversion of the decoded
pixel data. -/
structure DecodedImage where
  h : Nat
  w : Nat
  gray : List ℚ
  deriving DecidableEq

/-- `gray.mean()`: the arithmetic mean of the luminance values. -/
def meanBrightness (img : DecodedImage) : ℚ :=
  img.gray.sum / (img.gray.length : ℚ)

/-- The filesystem plus image decoder: a path maps to `some` decoded image,
or to `none` when the file does not exist (`os.path.exists` is false) or
cannot be decoded (`cv2.imread` returns `None`). -/
abbrev FileSystem := String → Option DecodedImage

/-- `os.path.join(image_dir, file_name)`. -/
def joinPath (image_dir file_name : String) : String :=
  image_dir ++ "/" ++ file_name

/-- COCO image metadata record (the fields the scanner reads:
`img_info['id']` and `img_info['file_name']`). -/
structure ImgInfo where
  id : Int
  file_name : String
  deriving DecidableEq

/-- COCO annotation record with the bounding box as the well-formed 4-tuple
`(x, y, width, height)`. -/
structure Annotation where
  image_id : Int
  category_id : Int
  bbox : ℚ × ℚ × ℚ × ℚ
  deriving DecidableEq

/-- One `too_small` finding: the dict
`{'image': …, 'bbox': …, 'category': …}` appended by the annotation loop.
`B` is the bounding-box representation. -/
structure Finding (B : Type) where
  image : String
  bbox : B
  category : Int
  deriving DecidableEq

/-- The per-image issue dictionary initialised at the top of
`process_single_image` (note: it has no `occluded` key). `F` is the
finding type of the `too_small` list. -/
structure Issues (F : Type) where
  low_resolution : List String
  poor_lighting : List String
  too_small : List F
  image_name : String
  deriving DecidableEq

/-- The merged report built by `merge_issues`: the three populated category
lists plus the `occluded` placeholder list, which no code path extends. -/
structure Report (F : Type) where
  low_resolution : List String
  poor_lighting : List String
  too_small : List F
  occluded : List String
  deriving DecidableEq

/-- Body of the `for ann in img_annotations` loop of `process_single_image`:
append a finding when `bbox_w * bbox_h < w * h * 0.02`. -/
def annLoopStep (file_name : String) (w h : Nat)
    (issues : Issues (Finding (ℚ × ℚ × ℚ × ℚ))) (ann : Annotation) :
    Issues (Finding (ℚ × ℚ × ℚ × ℚ)) :=
  let bbox_w := ann.bbox.2.2.1
  let bbox_h := ann.bbox.2.2.2
  if bbox_w * bbox_h < (w : ℚ) * (h : ℚ) * 0.02 then
    { issues with
        too_small := issues.too_small ++ [⟨file_name, ann.bbox, ann.category_id⟩] }
  else issues

/-- `process_single_image(img_info_with_anns)`: evaluate one work item
`(img_info, image_dir, img_annotations)`.  Returns the all-empty issue
dictionary when the image file is missing or cannot be decoded; otherwise
performs the resolution, brightness and bounding-box-size checks. -/
def process_single_image (fs : FileSystem) :
    ImgInfo × String × List Annotation → Issues (Finding (ℚ × ℚ × ℚ × ℚ))
  | (img_info, image_dir, img_annotations) =>
    let issues : Issues (Finding (ℚ × ℚ × ℚ × ℚ)) :=
      ⟨[], [], [], img_info.file_name⟩
    let img_path := joinPath image_dir img_info.file_name
    match fs img_path with
    | none => issues
    | some img =>
      let w := img.w
      let h := img.h
      let issues :=
        if w < 640 ∨ h < 480 then
          { issues with
              low_resolution := issues.low_resolution ++ [img_info.file_name] }
        else issues
      let brightness := meanBrightness img
      let issues :=
        if brightness < 50 then
          { issues with
              poor_lighting := issues.poor_lighting ++ [img_info.file_name] }
        else issues
      img_annotations.foldl (annLoopStep img_info.file_name w h) issues

/-- One iteration of the `for issue_dict in all_issues` loop of
`merge_issues`: extend the three category lists of the accumulator. -/
def mergeStep {F : Type} (merged : Report F) (issue_dict : Issues F) : Report F :=
  { merged with
      low_resolution := merged.low_resolution ++ issue_dict.low_resolution
      poor_lighting := merged.poor_lighting ++ issue_dict.poor_lighting
      too_small := merged.too_small ++ issue_dict.too_small }

/-- `merge_issues(all_issues)`: fold the per-image issue dictionaries into one
report, starting from the report whose four lists are empty.  The `occluded`
list is never extended. -/
def merge_issues {F : Type} (all_issues : List (Issues F)) : Report F :=
  all_issues.foldl mergeStep ⟨[], [], [], []⟩

/-- One iteration of the annotation-indexing loop: Python's
`if img_id not in annotations_dict: annotations_dict[img_id] = []` followed by
`annotations_dict[img_id].append(ann)`, on an insertion-ordered dictionary
embedded as an association list. -/
def dictInsert {A : Type} (key : A → Int) :
    List (Int × List A) → A → List (Int × List A)
  | [], a => [(key a, [a])]
  | (k, v) :: rest, a =>
    if k = key a then (k, v ++ [a]) :: rest
    else (k, v) :: dictInsert key rest a

/-- `annotations_dict`: the annotation index built in one pass over
`data['annotations']`. -/
def buildIndex {A : Type} (key : A → Int) (anns : List A) : List (Int × List A) :=
  anns.foldl (dictInsert key) []

/-- `annotations_dict.get(img_id, [])`: dictionary lookup defaulting to the
empty list. -/
def lookupIndex {A : Type} (d : List (Int × List A)) (i : Int) : List A :=
  match d.find? (fun kv => kv.1 == i) with
  | some kv => kv.2
  | none => []

/-- The parsed COCO dataset, restricted to the two collections the scanner
reads (`data['categories']` is unused by `check_data_quality`). -/
structure Dataset where
  images : List ImgInfo
  annotations : List Annotation
  deriving DecidableEq

/-- `work_items`: one `(img_info, image_dir, img_annotations)` triple per
image, with the annotations looked up in the index (default empty). -/
def workItems (data : Dataset) (image_dir : String) :
    List (ImgInfo × String × List Annotation) :=
  let annotations_dict := buildIndex (fun a => a.image_id) data.annotations
  data.images.map (fun img_info =>
    (img_info, image_dir, lookupIndex annotations_dict img_info.id))

/-- Fuel-indexed chunking helper for `chunkList`. -/
def chunkGo {A : Type} (n : Nat) : Nat → List A → List (List A)
  | _, [] => []
  | 0, l => [l]
  | fuel + 1, x :: xs => (x :: xs).take n :: chunkGo n fuel ((x :: xs).drop n)

/-- Cut a list into consecutive chunks of `n` elements (last chunk may be
shorter): how `Pool.imap(…, chunksize=n)` groups the submitted work items
into tasks. -/
def chunkList {A : Type} (n : Nat) (l : List A) : List (List A) :=
  chunkGo n l.length l

/-- `check_data_quality(data, image_dir, num_workers)`: build the annotation
index, partition into work items, evaluate every work item through
`Pool.imap(process_single_image, work_items, chunksize=50)` — which hands the
items to the `num_workers` workers in chunks of 50 and yields the results in
submission order, independently of which worker ran which chunk — and merge
the collected results.  `num_workers` only sizes the pool; it appears nowhere
in the data path. -/
def check_data_quality (fs : FileSystem) (data : Dataset) (image_dir : String)
    (num_workers : Option Nat) : Report (Finding (ℚ × ℚ × ℚ × ℚ)) :=
  let work_items := workItems data image_dir
  let results :=
    ((chunkList 50 work_items).map (List.map (process_single_image fs))).flatten
  merge_issues results

/-- COCO annotation at the raw-JSON level: `ann['bbox']` is whatever list of
numbers the annotation file held, before any validation. -/
structure RawAnnotation where
  image_id : Int
  category_id : Int
  bbox : List ℚ
  deriving DecidableEq

/-- The parsed dataset at the raw-JSON level. -/
structure RawDataset where
  images : List ImgInfo
  annotations : List RawAnnotation
  deriving DecidableEq

/-- The annotation loop of `process_single_image` at the raw level:
`bbox_w, bbox_h = ann['bbox'][2], ann['bbox'][3]` raises `IndexError` when the
list is too short, and the loop body contains no handler, so the exception
aborts the evaluation of the unit. -/
def annLoopRaw (file_name : String) (w h : Nat) :
    List RawAnnotation → Issues (Finding (List ℚ)) →
    Except String (Issues (Finding (List ℚ)))
  | [], issues => .ok issues
  | ann :: rest, issues =>
    match ann.bbox.get? 2, ann.bbox.get? 3 with
    | some bbox_w, some bbox_h =>
      annLoopRaw file_name w h rest
        (if bbox_w * bbox_h < (w : ℚ) * (h : ℚ) * 0.02 then
          { issues with
              too_small := issues.too_small ++ [⟨file_name, ann.bbox, ann.category_id⟩] }
        else issues)
    | _, _ => .error "IndexError"

/-- `process_single_image` at the raw level: identical to the typed level,
except that the bounding-box subscripts can raise. -/
def process_single_image_raw (fs : FileSystem) :
    ImgInfo × String × List RawAnnotation →
    Except String (Issues (Finding (List ℚ)))
  | (img_info, image_dir, img_annotations) =>
    let issues : Issues (Finding (List ℚ)) := ⟨[], [], [], img_info.file_name⟩
    match fs (joinPath image_dir img_info.file_name) with
    | none => .ok issues
    | some img =>
      let w := img.w
      let h := img.h
      let issues :=
        if w < 640 ∨ h < 480 then
          { issues with
              low_resolution := issues.low_resolution ++ [img_info.file_name] }
        else issues
      let issues :=
        if meanBrightness img < 50 then
          { issues with
              poor_lighting := issues.poor_lighting ++ [img_info.file_name] }
        else issues
      annLoopRaw img_info.file_name w h img_annotations issues

/-- `work_items` at the raw level. -/
def workItemsRaw (data : RawDataset) (image_dir : String) :
    List (ImgInfo × String × List RawAnnotation) :=
  let annotations_dict := buildIndex (fun a => a.image_id) data.annotations
  data.images.map (fun img_info =>
    (img_info, image_dir, lookupIndex annotations_dict img_info.id))

/-- The `for i, result in enumerate(pool.imap(…))` collection loop: results
are appended in submission order; a worker exception is re-raised in the
parent when that unit's result is fetched, terminating the pool, so the first
(in submission order) failing unit aborts the collection. -/
def collectResults {A B : Type} (f : A → Except String B) :
    List A → Except String (List B)
  | [] => .ok []
  | x :: xs =>
    match f x with
    | .error e => .error e
    | .ok r =>
      match collectResults f xs with
      | .error e => .error e
      | .ok rs => .ok (r :: rs)

/-- `check_data_quality` at the raw level: any exception escaping a unit
evaluation propagates out of the scan; otherwise the collected results are
merged. -/
def check_data_quality_raw (fs : FileSystem) (data : RawDataset)
    (image_dir : String) (num_workers : Option Nat) :
    Except String (Report (Finding (List ℚ))) :=
  match collectResults (process_single_image_raw fs) (workItemsRaw data image_dir) with
  | .error e => .error e
  | .ok results => .ok (merge_issues results)

/-- The merge fold, from an arbitrary accumulator: each populated category
list of the result is the accumulator's list followed by the concatenation of
the per-image lists; `occluded` is untouched. -/
theorem foldl_mergeStep {F : Type} (l : List (Issues F)) (acc : Report F) :
    l.foldl mergeStep acc =
      ⟨acc.low_resolution ++ (l.map Issues.low_resolution).flatten,
       acc.poor_lighting ++ (l.map Issues.poor_lighting).flatten,
       acc.too_small ++ (l.map Issues.too_small).flatten,
       acc.occluded⟩ := by
  induction l generalizing acc with
  | nil => cases acc; simp
  | cons d rest ih =>
    rw [List.foldl_cons, ih]
    simp [mergeStep]

/-- Field-wise characterisation of `merge_issues`: concatenation of the
per-image lists, and an always-empty `occluded` list. -/
theorem merge_issues_fields {F : Type} (l : List (Issues F)) :
    merge_issues l =
      ⟨(l.map Issues.low_resolution).flatten,
       (l.map Issues.poor_lighting).flatten,
       (l.map Issues.too_small).flatten, []⟩ := by
  simpa [merge_issues] using foldl_mergeStep l ⟨[], [], [], []⟩

/-- Flattening the chunks of a list gives the list back. -/
theorem chunkGo_flatten {A : Type} (n : Nat) (hn : 0 < n) :
    ∀ (fuel : Nat) (l : List A), l.length ≤ fuel → (chunkGo n fuel l).flatten = l := by
  intro fuel
  induction fuel with
  | zero =>
    intro l hl
    have : l = [] := List.eq_nil_of_length_eq_zero (Nat.le_zero.mp hl)
    subst this
    rfl
  | succ fuel ih =>
    intro l hl
    cases l with
    | nil => rfl
    | cons x xs =>
      rw [chunkGo, List.flatten_cons, ih _ ?_, List.take_append_drop]
      have hdrop : ((x :: xs).drop n).length = (x :: xs).length - n := by
        simp
      rw [hdrop]
      omega

/-- Flattening the chunks of a list gives the list back. -/
theorem chunkList_flatten {A : Type} (n : Nat) (hn : 0 < n) (l : List A) :
    (chunkList n l).flatten = l :=
  chunkGo_flatten n hn l.length l le_rfl

/-- The chunked dispatch of `check_data_quality` is the sequential map:
the scan merges exactly the per-work-item results, in work-item order. -/
theorem check_data_quality_serial (fs : FileSystem) (data : Dataset)
    (image_dir : String) (num_workers : Option Nat) :
    check_data_quality fs data image_dir num_workers =
      merge_issues ((workItems data image_dir).map (process_single_image fs)) := by
  simp only [check_data_quality]
  rw [← List.map_flatten, chunkList_flatten 50 (by omega)]

/-- The annotation loop appends exactly one finding per annotation whose
bounding-box area is below 2% of the image area, in annotation order, and
touches no other field. -/
theorem foldl_annLoopStep (file_name : String) (w h : Nat)
    (anns : List Annotation) (issues : Issues (Finding (ℚ × ℚ × ℚ × ℚ))) :
    anns.foldl (annLoopStep file_name w h) issues =
      { issues with
          too_small := issues.too_small ++
            (anns.filter (fun ann =>
                decide (ann.bbox.2.2.1 * ann.bbox.2.2.2 < (w : ℚ) * (h : ℚ) * 0.02))).map
              (fun ann => ⟨file_name, ann.bbox, ann.category_id⟩) } := by
  induction anns generalizing issues with
  | nil => cases issues; simp
  | cons a rest ih =>
    rw [List.foldl_cons, ih, List.filter_cons]
    by_cases hc : a.bbox.2.2.1 * a.bbox.2.2.2 < (w : ℚ) * (h : ℚ) * 0.02
    · simp [annLoopStep, hc]
    · simp [annLoopStep, hc]

/-- Closed form of `process_single_image` on a work item whose image file
loads with decoded dimensions `img.w × img.h`. -/
theorem process_single_image_loaded (fs : FileSystem) (info : ImgInfo)
    (image_dir : String) (anns : List Annotation) (img : DecodedImage)
    (hfs : fs (joinPath image_dir info.file_name) = some img) :
    process_single_image fs (info, image_dir, anns) =
      ⟨if img.w < 640 ∨ img.h < 480 then [info.file_name] else [],
       if meanBrightness img < 50 then [info.file_name] else [],
       (anns.filter (fun ann =>
           decide (ann.bbox.2.2.1 * ann.bbox.2.2.2 <
             (img.w : ℚ) * (img.h : ℚ) * 0.02))).map
         (fun ann => ⟨info.file_name, ann.bbox, ann.category_id⟩),
       info.file_name⟩ := by
  rw [process_single_image, hfs]
  by_cases h1 : img.w < 640 ∨ img.h < 480 <;>
    by_cases h2 : meanBrightness img < 50 <;>
      simp [h1, h2, foldl_annLoopStep]

/-- `process_single_image` on a work item whose image file is missing or
undecodable: the all-empty issue dictionary, tagged with the filename. -/
theorem process_single_image_skipped (fs : FileSystem) (info : ImgInfo)
    (image_dir : String) (anns : List Annotation)
    (hfs : fs (joinPath image_dir info.file_name) = none) :
    process_single_image fs (info, image_dir, anns) =
      ⟨[], [], [], info.file_name⟩ := by
  rw [process_single_image, hfs]

/-- Lookup in the empty dictionary. -/
theorem lookupIndex_nil {A : Type} (i : Int) :
    lookupIndex ([] : List (Int × List A)) i = [] := rfl

/-- Lookup steps through an association-list dictionary entry. -/
theorem lookupIndex_cons {A : Type} (k : Int) (v : List A)
    (rest : List (Int × List A)) (i : Int) :
    lookupIndex ((k, v) :: rest) i = if k = i then v else lookupIndex rest i := by
  by_cases h : k = i
  · simp [lookupIndex, List.find?, h]
  · have hb : (k == i) = false := by simp [h]
    simp [lookupIndex, List.find?, hb, h]

/-- Looking a key up after one dictionary-insertion step: the inserted
annotation lands at the end of its own key's list and nowhere else. -/
theorem lookupIndex_dictInsert {A : Type} (key : A → Int)
    (d : List (Int × List A)) (a : A) (i : Int) :
    lookupIndex (dictInsert key d a) i =
      if key a = i then lookupIndex d i ++ [a] else lookupIndex d i := by
  induction d with
  | nil =>
    by_cases h : key a = i <;>
      simp [dictInsert, lookupIndex_cons, lookupIndex_nil, h]
  | cons kv rest ih =>
    obtain ⟨k, v⟩ := kv
    by_cases hk : k = key a
    · rw [dictInsert, if_pos hk]
      simp only [lookupIndex_cons]
      by_cases hi : k = i
      · have hai : key a = i := by omega
        simp [hi, hai]
      · have hai : ¬ key a = i := by omega
        simp [hi, hai]
    · rw [dictInsert, if_neg hk]
      simp only [lookupIndex_cons, ih]
      by_cases hi : k = i
      · have hai : ¬ key a = i := by omega
        simp [hi, hai]
      · by_cases hai : key a = i <;> simp [hi, hai]

/-- Folding the indexing loop over a suffix of annotations, from an arbitrary
dictionary state. -/
theorem lookupIndex_foldl {A : Type} (key : A → Int) (anns : List A)
    (d : List (Int × List A)) (i : Int) :
    lookupIndex (anns.foldl (dictInsert key) d) i =
      lookupIndex d i ++ anns.filter (fun a => key a == i) := by
  induction anns generalizing d with
  | nil => simp
  | cons a rest ih =>
    rw [List.foldl_cons, ih, lookupIndex_dictInsert, List.filter_cons]
    by_cases h : key a = i
    · simp [h]
    · simp [h]

/-- Merging a list of issue dictionaries with an all-empty one inserted
anywhere equals merging the list without it. -/
theorem merge_issues_empty_middle {F : Type} (l₁ l₂ : List (Issues F))
    (name : String) :
    merge_issues (l₁ ++ (⟨[], [], [], name⟩ : Issues F) :: l₂) =
      merge_issues (l₁ ++ l₂) := by
  rw [merge_issues_fields, merge_issues_fields]
  simp

/-- C7: the annotation index, read through the defaulting lookup the
partitioner uses, maps every image identifier `i` to exactly the ordered
sequence of the annotations whose `image_id` is `i` — so each annotation
occurrence lands in exactly one image's sequence, and an image with no
annotations gets the empty sequence rather than a missing entry. -/
theorem annotation_index_complete (anns : List Annotation) (i : Int) :
    lookupIndex (buildIndex (fun a => a.image_id) anns) i =
      anns.filter (fun a => a.image_id == i) := by
  rw [buildIndex, lookupIndex_foldl, lookupIndex_nil, List.nil_append]

/-- C1: merging any permutation of a list of per-image issue sets produces an
aggregate report whose four category lists are, category by category,
permutations (equal as multisets) of those produced from any other
permutation. -/
theorem merge_issues_order_independent {F : Type} (l₁ l₂ : List (Issues F))
    (hp : l₁.Perm l₂) :
    (merge_issues l₁).low_resolution.Perm (merge_issues l₂).low_resolution ∧
    (merge_issues l₁).poor_lighting.Perm (merge_issues l₂).poor_lighting ∧
    (merge_issues l₁).too_small.Perm (merge_issues l₂).too_small ∧
    (merge_issues l₁).occluded.Perm (merge_issues l₂).occluded := by
  rw [merge_issues_fields, merge_issues_fields]
  exact ⟨(hp.map _).flatten, (hp.map _).flatten, (hp.map _).flatten,
    List.Perm.refl _⟩

/-- Witness for C1: two concrete issue sets merged in both orders. -/
theorem merge_issues_order_independent_witness :
    (merge_issues [(⟨["a.jpg"], [], [], "a.jpg"⟩ : Issues (Finding (ℚ × ℚ × ℚ × ℚ))),
        ⟨[], ["b.jpg"], [], "b.jpg"⟩]).low_resolution.Perm
      (merge_issues [(⟨[], ["b.jpg"], [], "b.jpg"⟩ : Issues (Finding (ℚ × ℚ × ℚ × ℚ))),
        ⟨["a.jpg"], [], [], "a.jpg"⟩]).low_resolution ∧
    (merge_issues [(⟨["a.jpg"], [], [], "a.jpg"⟩ : Issues (Finding (ℚ × ℚ × ℚ × ℚ))),
        ⟨[], ["b.jpg"], [], "b.jpg"⟩]).poor_lighting.Perm
      (merge_issues [(⟨[], ["b.jpg"], [], "b.jpg"⟩ : Issues (Finding (ℚ × ℚ × ℚ × ℚ))),
        ⟨["a.jpg"], [], [], "a.jpg"⟩]).poor_lighting ∧
    (merge_issues [(⟨["a.jpg"], [], [], "a.jpg"⟩ : Issues (Finding (ℚ × ℚ × ℚ × ℚ))),
        ⟨[], ["b.jpg"], [], "b.jpg"⟩]).too_small.Perm
      (merge_issues [(⟨[], ["b.jpg"], [], "b.jpg"⟩ : Issues (Finding (ℚ × ℚ × ℚ × ℚ))),
        ⟨["a.jpg"], [], [], "a.jpg"⟩]).too_small ∧
    (merge_issues [(⟨["a.jpg"], [], [], "a.jpg"⟩ : Issues (Finding (ℚ × ℚ × ℚ × ℚ))),
        ⟨[], ["b.jpg"], [], "b.jpg"⟩]).occluded.Perm
      (merge_issues [(⟨[], ["b.jpg"], [], "b.jpg"⟩ : Issues (Finding (ℚ × ℚ × ℚ × ℚ))),
        ⟨["a.jpg"], [], [], "a.jpg"⟩]).occluded :=
  merge_issues_order_independent _ _ (List.Perm.swap _ _ _)

/-- C2: the degree-of-parallelism argument never affects the returned report
— any two settings (including `some 1` and auto-detection `none`) produce the
same report, and the chunked dispatch equals the serial fold of the evaluator
over the work items. -/
theorem check_data_quality_parallelism_independent (fs : FileSystem)
    (data : Dataset) (image_dir : String) (n m : Option Nat) :
    check_data_quality fs data image_dir n = check_data_quality fs data image_dir m ∧
    check_data_quality fs data image_dir n =
      merge_issues ((workItems data image_dir).map (process_single_image fs)) :=
  ⟨rfl, check_data_quality_serial fs data image_dir n⟩

/-- C4: for a work unit whose image loads with decoded dimensions
`img.w × img.h`, the unit's filename is in `low_resolution` exactly when
`img.w < 640 ∨ img.h < 480`. -/
theorem low_resolution_iff (fs : FileSystem) (info : ImgInfo)
    (image_dir : String) (anns : List Annotation) (img : DecodedImage)
    (hfs : fs (joinPath image_dir info.file_name) = some img) :
    info.file_name ∈ (process_single_image fs (info, image_dir, anns)).low_resolution ↔
      (img.w < 640 ∨ img.h < 480) := by
  rw [process_single_image_loaded fs info image_dir anns img hfs]
  by_cases h : img.w < 640 ∨ img.h < 480 <;> simp [h]

/-- Witness for C4: a 600×500 image is flagged, a 640×480 image is not. -/
theorem low_resolution_iff_witness :
    "a.jpg" ∈ (process_single_image
        (fun p => if p = "d/a.jpg" then some ⟨500, 600, [100]⟩ else none)
        (⟨1, "a.jpg"⟩, "d", [])).low_resolution ∧
    "b.jpg" ∉ (process_single_image
        (fun p => if p = "d/b.jpg" then some ⟨480, 640, [100]⟩ else none)
        (⟨2, "b.jpg"⟩, "d", [])).low_resolution := by
  constructor
  · exact (low_resolution_iff _ ⟨1, "a.jpg"⟩ "d" [] ⟨500, 600, [100]⟩
      (by simp [joinPath])).mpr (by norm_num)
  · intro hmem
    have h := (low_resolution_iff _ ⟨2, "b.jpg"⟩ "d" [] ⟨480, 640, [100]⟩
      (by simp [joinPath])).mp hmem
    rcases h with h | h <;> simp at h

/-- C5: for a work unit whose image loads, the unit's filename is in
`poor_lighting` exactly when the arithmetic mean luminance is strictly below
50. -/
theorem poor_lighting_iff (fs : FileSystem) (info : ImgInfo)
    (image_dir : String) (anns : List Annotation) (img : DecodedImage)
    (hfs : fs (joinPath image_dir info.file_name) = some img) :
    info.file_name ∈ (process_single_image fs (info, image_dir, anns)).poor_lighting ↔
      meanBrightness img < 50 := by
  rw [process_single_image_loaded fs info image_dir anns img hfs]
  by_cases h : meanBrightness img < 50 <;> simp [h]

/-- Witness for C5: an all-black image is flagged, an image of mean luminance
exactly 50 is not. -/
theorem poor_lighting_iff_witness :
    "a.jpg" ∈ (process_single_image
        (fun p => if p = "d/a.jpg" then some ⟨700, 700, [0, 0, 0, 0]⟩ else none)
        (⟨1, "a.jpg"⟩, "d", [])).poor_lighting ∧
    "b.jpg" ∉ (process_single_image
        (fun p => if p = "d/b.jpg" then some ⟨700, 700, [40, 60]⟩ else none)
        (⟨2, "b.jpg"⟩, "d", [])).poor_lighting := by
  constructor
  · exact (poor_lighting_iff _ ⟨1, "a.jpg"⟩ "d" [] ⟨700, 700, [0, 0, 0, 0]⟩
      (by simp [joinPath])).mpr (by norm_num [meanBrightness])
  · intro hmem
    have h := (poor_lighting_iff _ ⟨2, "b.jpg"⟩ "d" [] ⟨700, 700, [40, 60]⟩
      (by simp [joinPath])).mp hmem
    norm_num [meanBrightness] at h

/-- C3: for a work unit whose image loads with decoded dimensions
`img.w × img.h`, the `too_small` list holds exactly one finding
`{filename, bbox, category_id}` per annotation of the unit whose bounding-box
area `bbox.width * bbox.height` is strictly below `img.w * img.h * 0.02`, in
annotation order. -/
theorem too_small_iff (fs : FileSystem) (info : ImgInfo)
    (image_dir : String) (anns : List Annotation) (img : DecodedImage)
    (hfs : fs (joinPath image_dir info.file_name) = some img) :
    (process_single_image fs (info, image_dir, anns)).too_small =
      (anns.filter (fun ann =>
          decide (ann.bbox.2.2.1 * ann.bbox.2.2.2 <
            (img.w : ℚ) * (img.h : ℚ) * 0.02))).map
        (fun ann => ⟨info.file_name, ann.bbox, ann.category_id⟩) := by
  rw [process_single_image_loaded fs info image_dir anns img hfs]

/-- Witness for C3: on a 1000×1000 image, a bounding box covering 1% of the
area is flagged, one covering 3% is not. -/
theorem too_small_iff_witness :
    (process_single_image
        (fun p => if p = "d/a.jpg" then some ⟨1000, 1000, [100]⟩ else none)
        (⟨1, "a.jpg"⟩, "d",
          [⟨1, 7, (0, 0, 100, 100)⟩, ⟨1, 8, (0, 0, 300, 100)⟩])).too_small =
      [⟨"a.jpg", (0, 0, 100, 100), 7⟩] := by
  rw [too_small_iff _ ⟨1, "a.jpg"⟩ "d" _ ⟨1000, 1000, [100]⟩ (by simp [joinPath])]
  norm_num [List.filter_cons, List.filter_nil, OfScientific.ofScientific]

/-- C10: every entry of the issue set of one work unit references only that
unit's own data: flagged filenames equal the unit's filename and occur at
most once per list, every `too_small` finding carries the unit's filename and
the bbox and category of one of the unit's own annotations, and `image_name`
always equals the input filename, also for skipped units. -/
theorem issue_set_own_data (fs : FileSystem) (info : ImgInfo)
    (image_dir : String) (anns : List Annotation) :
    (process_single_image fs (info, image_dir, anns)).image_name = info.file_name ∧
    (process_single_image fs (info, image_dir, anns)).low_resolution.length ≤ 1 ∧
    (process_single_image fs (info, image_dir, anns)).poor_lighting.length ≤ 1 ∧
    (∀ f ∈ (process_single_image fs (info, image_dir, anns)).low_resolution,
      f = info.file_name) ∧
    (∀ f ∈ (process_single_image fs (info, image_dir, anns)).poor_lighting,
      f = info.file_name) ∧
    (∀ fd ∈ (process_single_image fs (info, image_dir, anns)).too_small,
      fd.image = info.file_name ∧
        ∃ a ∈ anns, fd.bbox = a.bbox ∧ fd.category = a.category_id) := by
  cases hfs : fs (joinPath image_dir info.file_name) with
  | none =>
    rw [process_single_image_skipped fs info image_dir anns hfs]
    simp
  | some img =>
    rw [process_single_image_loaded fs info image_dir anns img hfs]
    refine ⟨rfl, ?_, ?_, ?_, ?_, ?_⟩
    · by_cases h : img.w < 640 ∨ img.h < 480 <;> simp [h]
    · by_cases h : meanBrightness img < 50 <;> simp [h]
    · by_cases h : img.w < 640 ∨ img.h < 480 <;> simp [h]
    · by_cases h : meanBrightness img < 50 <;> simp [h]
    · intro fd hfd
      simp only [List.mem_map] at hfd
      obtain ⟨a, ha, rfl⟩ := hfd
      exact ⟨rfl, a, List.mem_of_mem_filter ha, rfl, rfl⟩

/-- Witness for C10: a concrete unit whose image loads, with one too-small
annotation; the issue set carries the unit's filename and the finding is
backed by the unit's own annotation. -/
theorem issue_set_own_data_witness :
    (process_single_image
        (fun p => if p = "d/a.jpg" then some ⟨100, 100, [0]⟩ else none)
        (⟨1, "a.jpg"⟩, "d", [⟨1, 7, (0, 0, 5, 5)⟩])).image_name = "a.jpg" ∧
    (⟨"a.jpg", (0, 0, 5, 5), 7⟩ : Finding (ℚ × ℚ × ℚ × ℚ)).image = "a.jpg" ∧
    ∃ a ∈ [(⟨1, 7, (0, 0, 5, 5)⟩ : Annotation)],
      (⟨"a.jpg", (0, 0, 5, 5), 7⟩ : Finding (ℚ × ℚ × ℚ × ℚ)).bbox = a.bbox ∧
      (⟨"a.jpg", (0, 0, 5, 5), 7⟩ : Finding (ℚ × ℚ × ℚ × ℚ)).category = a.category_id := by
  have h := issue_set_own_data
    (fun p => if p = "d/a.jpg" then some ⟨100, 100, [0]⟩ else none)
    ⟨1, "a.jpg"⟩ "d" [⟨1, 7, (0, 0, 5, 5)⟩]
  have hts : (process_single_image
      (fun p => if p = "d/a.jpg" then some ⟨100, 100, [0]⟩ else none)
      (⟨1, "a.jpg"⟩, "d", [⟨1, 7, (0, 0, 5, 5)⟩])).too_small =
      [⟨"a.jpg", (0, 0, 5, 5), 7⟩] := by
    rw [too_small_iff _ ⟨1, "a.jpg"⟩ "d" _ ⟨100, 100, [0]⟩ (by simp [joinPath])]
    norm_num [List.filter_cons, List.filter_nil, OfScientific.ofScientific]
  have hfd := h.2.2.2.2.2 ⟨"a.jpg", (0, 0, 5, 5), 7⟩
    (by rw [hts]; exact List.mem_singleton_self _)
  exact ⟨h.1, hfd.1, hfd.2⟩

/-- C6: a work unit whose image file is missing or undecodable yields the
issue dictionary with all its category lists empty (only tagged with the
filename), and the whole scan produces exactly the report it would produce on
the dataset without that image — it completes and reports on all remaining
units. -/
theorem missing_file_tolerated (fs : FileSystem) (data : Dataset)
    (image_dir : String) (num_workers : Option Nat) (pre post : List ImgInfo)
    (info : ImgInfo)
    (hsplit : data.images = pre ++ info :: post)
    (hmiss : fs (joinPath image_dir info.file_name) = none) :
    (∀ anns, process_single_image fs (info, image_dir, anns) =
      ⟨[], [], [], info.file_name⟩) ∧
    check_data_quality fs data image_dir num_workers =
      check_data_quality fs ⟨pre ++ post, data.annotations⟩ image_dir num_workers := by
  constructor
  · intro anns
    exact process_single_image_skipped fs info image_dir anns hmiss
  · rw [check_data_quality_serial, check_data_quality_serial]
    simp only [workItems, hsplit, List.map_map, List.map_append, List.map_cons,
      Function.comp]
    rw [process_single_image_skipped fs info image_dir _ hmiss]
    exact merge_issues_empty_middle _ _ _

/-- Witness for C6: a two-image dataset where the second image's file is
missing; its unit yields the all-empty issue set and the scan equals the scan
of the remaining one-image dataset. -/
theorem missing_file_tolerated_witness :
    process_single_image (fun _ => none) (⟨2, "b.jpg"⟩, "d", []) =
      ⟨[], [], [], "b.jpg"⟩ ∧
    check_data_quality (fun _ => none) ⟨[⟨1, "a.jpg"⟩, ⟨2, "b.jpg"⟩], []⟩ "d" none =
      check_data_quality (fun _ => none) ⟨[⟨1, "a.jpg"⟩], []⟩ "d" none := by
  have h := missing_file_tolerated (fun _ => none)
    ⟨[⟨1, "a.jpg"⟩, ⟨2, "b.jpg"⟩], []⟩ "d" none [⟨1, "a.jpg"⟩] [] ⟨2, "b.jpg"⟩
    rfl rfl
  exact ⟨h.1 [], h.2⟩

/-- The collection loop of the scan propagates the first failing unit's
exception once every earlier unit succeeded. -/
theorem collectResults_error {A B : Type} (f : A → Except String B)
    (pre : List A) (u : A) (post : List A) (e : String)
    (hpre : ∀ v ∈ pre, ∃ r, f v = .ok r) (hu : f u = .error e) :
    collectResults f (pre ++ u :: post) = .error e := by
  induction pre with
  | nil =>
    rw [List.nil_append, collectResults, hu]
  | cons v vs ih =>
    obtain ⟨r, hr⟩ := hpre v (List.mem_cons_self v vs)
    rw [List.cons_append, collectResults, hr,
      ih (fun w hw => hpre w (List.mem_cons_of_mem v hw))]

/-- When no image file loads, every unit evaluates to its all-empty issue
dictionary and the collection loop succeeds with those. -/
theorem collectResults_all_missing (fs : FileSystem) (hfs : ∀ p, fs p = none)
    (l : List (ImgInfo × String × List RawAnnotation)) :
    collectResults (process_single_image_raw fs) l =
      .ok (l.map (fun item =>
        (⟨[], [], [], item.1.file_name⟩ : Issues (Finding (List ℚ))))) := by
  induction l with
  | nil => rfl
  | cons x xs ih =>
    obtain ⟨info, image_dir, anns⟩ := x
    have hx : process_single_image_raw fs (info, image_dir, anns) =
        .ok ⟨[], [], [], info.file_name⟩ := by
      rw [process_single_image_raw, hfs]
    rw [collectResults, hx, ih]
    rfl

/-- Merging a list of issue dictionaries whose category lists are all empty
yields the report with all four lists empty. -/
theorem merge_issues_empties {F : Type} (l : List (Issues F))
    (h : ∀ iss ∈ l, iss.low_resolution = [] ∧ iss.poor_lighting = [] ∧
      iss.too_small = []) :
    merge_issues l = ⟨[], [], [], []⟩ := by
  rw [merge_issues_fields]
  have h1 : (l.map Issues.low_resolution).flatten = [] := by
    rw [List.flatten_eq_nil_iff]
    intro xs hxs
    obtain ⟨iss, hiss, rfl⟩ := List.mem_map.mp hxs
    exact (h iss hiss).1
  have h2 : (l.map Issues.poor_lighting).flatten = [] := by
    rw [List.flatten_eq_nil_iff]
    intro xs hxs
    obtain ⟨iss, hiss, rfl⟩ := List.mem_map.mp hxs
    exact (h iss hiss).2.1
  have h3 : (l.map Issues.too_small).flatten = [] := by
    rw [List.flatten_eq_nil_iff]
    intro xs hxs
    obtain ⟨iss, hiss, rfl⟩ := List.mem_map.mp hxs
    exact (h iss hiss).2.2
  rw [h1, h2, h3]

/-- Counterexample to C8 as stated: a two-image dataset whose first image has
an annotation with an empty `bbox` list.  Both image files decode, yet the
`IndexError` raised inside the first unit's annotation loop propagates out of
the scan: `check_data_quality` raises instead of producing an aggregate
report over the remaining unit. -/
theorem uncaught_exception_aborts_scan_cx :
    check_data_quality_raw (fun _ => some ⟨480, 640, [100]⟩)
      ⟨[⟨1, "a.jpg"⟩, ⟨2, "b.jpg"⟩], [⟨1, 9, []⟩]⟩ "d" none =
      .error "IndexError" := by
  have hu : process_single_image_raw (fun _ => some ⟨480, 640, [100]⟩)
      (⟨1, "a.jpg"⟩, "d", [⟨1, 9, []⟩]) = .error "IndexError" := by
    rw [process_single_image_raw]
    norm_num [meanBrightness, annLoopRaw]
  have hw : workItemsRaw ⟨[⟨1, "a.jpg"⟩, ⟨2, "b.jpg"⟩], [⟨1, 9, []⟩]⟩ "d" =
      [(⟨1, "a.jpg"⟩, "d", [⟨1, 9, []⟩]), (⟨2, "b.jpg"⟩, "d", [])] := rfl
  rw [check_data_quality_raw, hw, collectResults, hu]

/-- C8 amended: an exception raised while evaluating one work unit (other
than the tolerated missing-file/undecodable cases, which return an empty
issue set) is NOT caught at the unit boundary: once the units before it have
succeeded, the exception propagates out of the scan, which aborts with that
exception and produces no aggregate report. -/
theorem scan_aborts_on_unit_error (fs : FileSystem) (data : RawDataset)
    (image_dir : String) (num_workers : Option Nat)
    (pre post : List (ImgInfo × String × List RawAnnotation))
    (u : ImgInfo × String × List RawAnnotation) (e : String)
    (hsplit : workItemsRaw data image_dir = pre ++ u :: post)
    (hpre : ∀ v ∈ pre, ∃ r, process_single_image_raw fs v = .ok r)
    (hu : process_single_image_raw fs u = .error e) :
    check_data_quality_raw fs data image_dir num_workers = .error e := by
  rw [check_data_quality_raw, hsplit,
    collectResults_error (process_single_image_raw fs) pre u post e hpre hu]

/-- Witness for C8 (amended): a concrete dataset with a malformed annotation
in its second image; the scan aborts with the `IndexError`. -/
theorem scan_aborts_on_unit_error_witness :
    check_data_quality_raw (fun _ => some ⟨480, 640, [100]⟩)
      ⟨[⟨5, "c.jpg"⟩, ⟨6, "e.jpg"⟩], [⟨6, 3, [10]⟩]⟩ "imgs" (some 4) =
      .error "IndexError" := by
  have hok : process_single_image_raw (fun _ => some ⟨480, 640, [100]⟩)
      (⟨5, "c.jpg"⟩, "imgs", []) = .ok ⟨[], [], [], "c.jpg"⟩ := by
    rw [process_single_image_raw]
    norm_num [meanBrightness, annLoopRaw]
  have hu : process_single_image_raw (fun _ => some ⟨480, 640, [100]⟩)
      (⟨6, "e.jpg"⟩, "imgs", [⟨6, 3, [10]⟩]) = .error "IndexError" := by
    rw [process_single_image_raw]
    norm_num [meanBrightness, annLoopRaw]
  exact scan_aborts_on_unit_error (fun _ => some ⟨480, 640, [100]⟩)
    ⟨[⟨5, "c.jpg"⟩, ⟨6, "e.jpg"⟩], [⟨6, 3, [10]⟩]⟩ "imgs" (some 4)
    [(⟨5, "c.jpg"⟩, "imgs", [])] [] (⟨6, "e.jpg"⟩, "imgs", [⟨6, 3, [10]⟩])
    "IndexError" rfl
    (fun v hv => by
      rw [List.mem_singleton] at hv
      exact ⟨⟨[], [], [], "c.jpg"⟩, hv ▸ hok⟩)
    hu

/-- Counterexample to C9 as stated: with an image directory in which no file
exists (`fs` maps every path to `none`, as for a missing directory), the scan
does not fail at start — it runs every unit through the tolerated
missing-file path and returns a complete, successful report with all four
lists empty. -/
theorem missing_dir_scan_completes_cx :
    check_data_quality_raw (fun _ => none)
      ⟨[⟨5, "img1.jpg"⟩, ⟨6, "img2.jpg"⟩], []⟩ "/no/such/dir" none =
      .ok ⟨[], [], [], []⟩ := rfl

/-- C9 amended: a missing annotation file is fatal before the scan is called
(the caller's `open` raises), but a missing or unreadable image directory is
not detected at scan start: every work unit is treated as a tolerated
missing-file case, the scan completes, and a successful report with all four
category lists empty is returned. -/
theorem missing_image_dir_not_fatal (fs : FileSystem) (data : RawDataset)
    (image_dir : String) (num_workers : Option Nat) (hfs : ∀ p, fs p = none) :
    check_data_quality_raw fs data image_dir num_workers =
      .ok ⟨[], [], [], []⟩ := by
  rw [check_data_quality_raw, collectResults_all_missing fs hfs]
  have hm : merge_issues ((workItemsRaw data image_dir).map
      (fun item => (⟨[], [], [], item.1.file_name⟩ : Issues (Finding (List ℚ))))) =
      ⟨[], [], [], []⟩ := by
    apply merge_issues_empties
    intro iss hiss
    obtain ⟨item, _, rfl⟩ := List.mem_map.mp hiss
    exact ⟨rfl, rfl, rfl⟩
  exact congrArg Except.ok hm

/-- Witness for C9 (amended): a concrete one-image dataset scanned against a
filesystem with no readable files completes with the empty report. -/
theorem missing_image_dir_not_fatal_witness :
    check_data_quality_raw (fun _ => none) ⟨[⟨1, "a.jpg"⟩], [⟨1, 2, [3]⟩]⟩
      "/missing" (some 8) = .ok ⟨[], [], [], []⟩ :=
  missing_image_dir_not_fatal (fun _ => none) ⟨[⟨1, "a.jpg"⟩], [⟨1, 2, [3]⟩]⟩
    "/missing" (some 8) (fun _ => rfl)

end Chakshu
